import Mathlib

/-
Verification of the energy model in
src/python/pressure_load_1.2/analytical_area_penalty1.2.2/Problem.py.

The Python class `problem` supplies an objective, a gradient and an
approximate Hessian for shape optimization on a triangle mesh.  Scalars are
modelled by the real numbers; numpy vectors of length 3*V by functions
`Fin (3*V) → ℝ`; numpy/scipy matrices by Mathlib matrices.  The mesh-library
calls (pymesh: per-face area, per-face normal, face-to-face adjacency,
numpy setdiff1d) are modelled by the definitions below, following the
library's documented behaviour; the assembled operators `lumped_mass` and
`laplacian` are opaque outputs of the external library, so the model takes
them as construction inputs.
-/

namespace Mem3DG

/-- Dot product of two 3-vectors (numpy np.dot on length-3 arrays). -/
def dot3 (a b : Fin 3 → ℝ) : ℝ := a 0 * b 0 + a 1 * b 1 + a 2 * b 2

/-- Cross product of two 3-vectors, with numpy's np.cross component formula. -/
def cross3 (a b : Fin 3 → ℝ) : Fin 3 → ℝ :=
  ![a 1 * b 2 - a 2 * b 1, a 2 * b 0 - a 0 * b 2, a 0 * b 1 - a 1 * b 0]

/-- Euclidean norm of a 3-vector (np.linalg.norm of a length-3 array). -/
noncomputable def norm3 (a : Fin 3 → ℝ) : ℝ := Real.sqrt (dot3 a a)

/-- A triangle mesh as pymesh holds it: V vertex positions (rows of a V×3
array) and F faces, each a triple of vertex indices. -/
structure Mesh where
  V : ℕ
  F : ℕ
  vertices : Fin V → Fin 3 → ℝ
  faces : Fin F → Fin 3 → Fin V

/-- Position of vertex number `n` of the mesh, for an index given as a bare
natural number.  An out-of-range index is an IndexError in the source; the
model returns the zero position there, and no statement below reaches that
branch. -/
def vpos (m : Mesh) (n : ℕ) : Fin 3 → ℝ :=
  if h : n < m.V then m.vertices ⟨n, h⟩ else fun _ => 0

/-- The face-area attribute of pymesh: half the norm of the cross product of
two edge vectors of the triangle. -/
noncomputable def faceArea (m : Mesh) (f : Fin m.F) : ℝ :=
  norm3 (cross3 (m.vertices (m.faces f 1) - m.vertices (m.faces f 0))
                (m.vertices (m.faces f 2) - m.vertices (m.faces f 0))) / 2

/-- The unnormalized face normal (the cross product of the two edges). -/
def faceNormalVec (m : Mesh) (f : Fin m.F) : Fin 3 → ℝ :=
  cross3 (m.vertices (m.faces f 1) - m.vertices (m.faces f 0))
         (m.vertices (m.faces f 2) - m.vertices (m.faces f 0))

/-- The face-normal attribute of pymesh: the unit normal of the face. -/
noncomputable def faceNormal (m : Mesh) (f : Fin m.F) : Fin 3 → ℝ :=
  fun c => faceNormalVec m f c / norm3 (faceNormalVec m f)

/-- The set of vertex indices of a face. -/
def faceVerts (m : Mesh) (f : Fin m.F) : Finset (Fin m.V) :=
  {m.faces f 0, m.faces f 1, m.faces f 2}

/-- Whether two faces share an edge, i.e. have at least two common vertices. -/
def sharesEdge (m : Mesh) (f g : Fin m.F) : Prop :=
  2 ≤ (faceVerts m f ∩ faceVerts m g).card

instance (m : Mesh) (f g : Fin m.F) : Decidable (sharesEdge m f g) := by
  unfold sharesEdge; infer_instance

/-- pymesh get_face_adjacent_faces: the faces other than `f` that share an
edge with face `f`. -/
def faceAdjacentFaces (m : Mesh) (f : Fin m.F) : List (Fin m.F) :=
  (List.finRange m.F).filter (fun g => decide (g ≠ f ∧ sharesEdge m f g))

/-- Insert a value into an ascending list, keeping it ascending. -/
def insertAsc (a : ℕ) : List ℕ → List ℕ
  | [] => [a]
  | b :: t => if a ≤ b then a :: b :: t else b :: insertAsc a t

/-- Insertion sort into ascending order. -/
def sortAsc : List ℕ → List ℕ
  | [] => []
  | a :: t => insertAsc a (sortAsc t)

/-- np.setdiff1d(mesh.faces[f], v): the sorted distinct vertex indices of
face `f` with the value `v` removed. -/
def setdiff1d_face (m : Mesh) (f : Fin m.F) (v : ℕ) : List ℕ :=
  sortAsc
    ((([(m.faces f 0 : ℕ), (m.faces f 1 : ℕ), (m.faces f 2 : ℕ)]).filter
      (fun n => decide (n ≠ v))).dedup)

/-- Reshape of a flat vector of length 3*V into a V×3 array with
numpy order='F' (column-major): entry (v, c) is x[c*V + v]. -/
def reshapeV (V : ℕ) (x : Fin (3 * V) → ℝ) : Fin V → Fin 3 → ℝ :=
  fun v c =>
    x ⟨c.1 * V + v.1, by
      have h1 : c.1 * V + v.1 < (c.1 + 1) * V := by
        rw [Nat.succ_mul]; exact Nat.add_lt_add_left v.isLt _
      exact lt_of_lt_of_le h1 (Nat.mul_le_mul_right _ c.isLt)⟩

/-- Flattening of a V×3 array into a vector of length 3*V with numpy
order='F' (column-major): entry i is the (i mod V, i div V) array entry. -/
def flattenV (V : ℕ) (M : Fin V → Fin 3 → ℝ) : Fin (3 * V) → ℝ :=
  fun i =>
    M ⟨i.1 % V, Nat.mod_lt _ (by have h := i.isLt; omega)⟩
      ⟨i.1 / V, by
        have h := i.isLt
        exact Nat.div_lt_of_lt_mul (by omega)⟩

/-- The flat (column-major) index holding coordinate `c` of vertex `v`. -/
def cmIndex {V : ℕ} (v : Fin V) (c : Fin 3) : Fin (3 * V) :=
  ⟨c.1 * V + v.1, by
    have h1 : c.1 * V + v.1 < (c.1 + 1) * V := by
      rw [Nat.succ_mul]; exact Nat.add_lt_add_left v.isLt _
    exact lt_of_lt_of_le h1 (Nat.mul_le_mul_right _ c.isLt)⟩

theorem reshapeV_flattenV (V : ℕ) (M : Fin V → Fin 3 → ℝ) :
    reshapeV V (flattenV V M) = M := by
  funext v c
  unfold reshapeV flattenV
  have hV : 0 < V := v.pos
  have hmod : (c.1 * V + v.1) % V = v.1 := by
    rw [Nat.add_comm, Nat.add_mul_mod_self_right, Nat.mod_eq_of_lt v.isLt]
  have hdiv : (c.1 * V + v.1) / V = c.1 := by
    rw [Nat.add_comm, Nat.add_mul_div_right _ _ hV, Nat.div_eq_of_lt v.isLt,
      Nat.zero_add]
  congr 1
  · exact Fin.ext hmod
  · exact Fin.ext hdiv

theorem flattenV_cmIndex {V : ℕ} (M : Fin V → Fin 3 → ℝ) (v : Fin V) (c : Fin 3) :
    flattenV V M (cmIndex v c) = M v c := by
  have h := congrFun (congrFun (reshapeV_flattenV V M) v) c
  simpa [reshapeV, cmIndex] using h

/-- scipy.sparse.block_diag((B, B, B)): three copies of the V×V block B along
the diagonal of a 3V×3V matrix.  Row i falls in block i / V at in-block row
i % V. -/
def blockDiag3 {V : ℕ} (B : Matrix (Fin V) (Fin V) ℝ) :
    Matrix (Fin (3 * V)) (Fin (3 * V)) ℝ :=
  fun i j =>
    if i.1 / V = j.1 / V then
      B ⟨i.1 % V, Nat.mod_lt _ (by have h := i.isLt; omega)⟩
        ⟨j.1 % V, Nat.mod_lt _ (by have h := j.isLt; omega)⟩
    else 0

/-- The `problem` object of Problem.py.  `penalty` and `pressure` are the
constructor scalars; `initM` (lumped mass) and `L` (Laplacian) are the
matrices the external pymesh assembler produces from the mesh at
construction, taken as given inputs of the model. -/
structure problem where
  mesh : Mesh
  penalty : ℝ
  pressure : ℝ
  initM : Matrix (Fin mesh.V) (Fin mesh.V) ℝ
  L : Matrix (Fin mesh.V) (Fin mesh.V) ℝ

/-- self.At0: the rest face areas, cached from the construction mesh. -/
noncomputable def problem.At0 (p : problem) : Fin p.mesh.F → ℝ :=
  fun f => faceArea p.mesh f

/-- hess_block = transpose(L) * inv(M) * L. -/
noncomputable def problem.hess_block (p : problem) :
    Matrix (Fin p.mesh.V) (Fin p.mesh.V) ℝ :=
  p.L.transpose * p.initM⁻¹ * p.L

/-- self.hess = block_diag((hess_block, hess_block, hess_block)). -/
noncomputable def problem.hess (p : problem) :
    Matrix (Fin (3 * p.mesh.V)) (Fin (3 * p.mesh.V)) ℝ :=
  blockDiag3 p.hess_block

/-- self.laplacian = inv(M) * L. -/
noncomputable def problem.laplacian (p : problem) :
    Matrix (Fin p.mesh.V) (Fin p.mesh.V) ℝ :=
  p.initM⁻¹ * p.L

/-- self.x0: the column-major flattening of the rest vertex positions. -/
def problem.x0 (p : problem) : Fin (3 * p.mesh.V) → ℝ :=
  flattenV p.mesh.V p.mesh.vertices

/-- The quasi-Newton instance state (self.gradient_pre, self.x_pre,
self.hess_pre) read and overwritten by the Hessian evaluator. -/
structure QNState (n : ℕ) where
  gradient_pre : Fin n → ℝ
  x_pre : Fin n → ℝ
  hess_pre : Matrix (Fin n) (Fin n) ℝ

/-- The state as __init__ leaves it: gradient_pre = 0, x_pre = zeros,
hess_pre = identity. -/
def initState (n : ℕ) : QNState n :=
  { gradient_pre := fun _ => 0
    x_pre := fun _ => 0
    hess_pre := 1 }

/-- The whole of __init__: it stores the inputs, precomputes the derived
operators and initializes the quasi-Newton state.  The source constructor
contains no validation of the mesh (no assert and no raise), so the model's
construction is total. -/
def mkProblem (pen pr : ℝ) (m : Mesh)
    (M0 L : Matrix (Fin m.V) (Fin m.V) ℝ) : problem × QNState (3 * m.V) :=
  ({ mesh := m, penalty := pen, pressure := pr, initM := M0, L := L },
    initState (3 * m.V))

/-- pymesh.form_mesh(vertices, self.mesh.faces) on the reshaped state vector:
same topology, deformed vertex positions. -/
def deformedMesh (m : Mesh) (x : Fin (3 * m.V) → ℝ) : Mesh :=
  { V := m.V, F := m.F, vertices := reshapeV m.V x, faces := m.faces }

/-- A 1×n numpy matrix holding a vector, as np.matrix(x). -/
def rowMat {n : ℕ} (x : Fin n → ℝ) : Matrix (Fin 1) (Fin n) ℝ := fun _ j => x j

/-- An n×1 numpy matrix holding a vector, as np.matrix(x).T. -/
def colMat {n : ℕ} (x : Fin n → ℝ) : Matrix (Fin n) (Fin 1) ℝ := fun i _ => x i

/-- obj_func_bending: np.asscalar(np.matrix(x) * self.hess * np.matrix(x).T / 2). -/
noncomputable def obj_func_bending (p : problem) (x : Fin (3 * p.mesh.V) → ℝ) : ℝ :=
  (rowMat x * p.hess * colMat x) 0 0 / 2

/-- The Euclidean norm of a vector of face values (np.linalg.norm). -/
noncomputable def euclNorm {n : ℕ} (w : Fin n → ℝ) : ℝ :=
  Real.sqrt (∑ f, w f ^ 2)

/-- obj_func_penalty: rebuild the mesh from the reshaped x, read the face
areas At, and return penalty * norm((At - At0)/sqrt(At0))^2. -/
noncomputable def obj_func_penalty (p : problem) (x : Fin (3 * p.mesh.V) → ℝ) : ℝ :=
  p.penalty *
    euclNorm (fun f : Fin p.mesh.F =>
      (faceArea (deformedMesh p.mesh x) f - p.At0 f) / Real.sqrt (p.At0 f)) ^ 2

/-- obj_func = obj_func_bending + obj_func_penalty. -/
noncomputable def obj_func (p : problem) (x : Fin (3 * p.mesh.V) → ℝ) : ℝ :=
  obj_func_bending p x + obj_func_penalty p x

/-- gradient_bending: self.hess * x. -/
noncomputable def gradient_bending (p : problem) (x : Fin (3 * p.mesh.V) → ℝ) :
    Fin (3 * p.mesh.V) → ℝ :=
  p.hess.mulVec x

/-- The candidate cross-product vector np.cross(face_normal[f], edge) of the
loop body of gradient_penalty, for vertex number v and face f: edge is the
difference of the first two entries of np.setdiff1d(mesh.faces[f], v). -/
noncomputable def pen_g0 (p : problem) (x : Fin (3 * p.mesh.V) → ℝ) (v : ℕ)
    (f : Fin p.mesh.F) : Fin 3 → ℝ :=
  let dm := deformedMesh p.mesh x
  let tri := setdiff1d_face dm f v
  cross3 (faceNormal dm f) (vpos dm (tri.getD 0 0) - vpos dm (tri.getD 1 0))

/-- The vector vertices[v] - vertices[tri_v[0]] whose dot product with the
cross product decides the sign correction. -/
def pen_w (p : problem) (x : Fin (3 * p.mesh.V) → ℝ) (v : ℕ)
    (f : Fin p.mesh.F) : Fin 3 → ℝ :=
  let dm := deformedMesh p.mesh x
  let tri := setdiff1d_face dm f v
  vpos dm v - vpos dm (tri.getD 0 0)

/-- One iteration of the inner loop of gradient_penalty: the sign-corrected
cross product scaled by 2*(At[f] - At0[f])/At0[f].  The sign test divides by
the product of the two norms with no guard, exactly as the source does. -/
noncomputable def grad_pen_term (p : problem) (x : Fin (3 * p.mesh.V) → ℝ) (v : ℕ)
    (f : Fin p.mesh.F) : Fin 3 → ℝ :=
  let dm := deformedMesh p.mesh x
  let g0 := pen_g0 p x v f
  let g :=
    if dot3 g0 (pen_w p x v f) / (norm3 g0 * norm3 (pen_w p x v f)) < 0 then -g0
    else g0
  fun c => 2 * g c * (faceArea dm f - p.At0 f) / p.At0 f

/-- The accumulated vector av for vertex number v: the source iterates
f over range(len(mesh.get_face_adjacent_faces(v))) — the vertex index v is
passed as a face index, and the loop counter f itself indexes mesh.faces.
For v outside the face range the source raises an IndexError; the model sums
nothing there (no statement below reaches that branch).  The adjacency list
has no duplicates, so its length is at most F and the guarded sum below is
the sum over f = 0 .. len-1. -/
noncomputable def grad_pen_vertex (p : problem) (x : Fin (3 * p.mesh.V) → ℝ)
    (v : ℕ) : Fin 3 → ℝ :=
  let dm := deformedMesh p.mesh x
  let k := if h : v < dm.F then (faceAdjacentFaces dm ⟨v, h⟩).length else 0
  ∑ f : Fin p.mesh.F, if f.1 < k then grad_pen_term p x v f else 0

/-- gradient_penalty: the slice assignment a[3*v : 3*v+3] = av places the
three components of av at the flat indices 3*v, 3*v+1, 3*v+2, so entry i of
the result is component i % 3 of the accumulated vector of vertex i / 3,
scaled by the penalty weight. -/
noncomputable def gradient_penalty (p : problem) (x : Fin (3 * p.mesh.V) → ℝ) :
    Fin (3 * p.mesh.V) → ℝ :=
  fun i =>
    p.penalty * grad_pen_vertex p x (i.1 / 3) ⟨i.1 % 3, Nat.mod_lt _ (by omega)⟩

/-- The per-vertex mean-curvature-like rows self.laplacian * vertices of the
force evaluator (a V×V matrix times the reshaped V×3 vertex array). -/
noncomputable def curvature (p : problem) (x : Fin (3 * p.mesh.V) → ℝ) :
    Fin p.mesh.V → Fin 3 → ℝ :=
  fun v c => ∑ w, p.laplacian v w * reshapeV p.mesh.V x w c

/-- np.linalg.norm(vector, 2, 1): the Euclidean norm of each row. -/
noncomputable def curvNorm (p : problem) (x : Fin (3 * p.mesh.V) → ℝ)
    (v : Fin p.mesh.V) : ℝ :=
  Real.sqrt (∑ c, curvature p x v c ^ 2)

/-- force: normalize each curvature row, flatten with order='F', scale by
the pressure magnitude.  The row division is unguarded in the source. -/
noncomputable def force (p : problem) (x : Fin (3 * p.mesh.V) → ℝ) :
    Fin (3 * p.mesh.V) → ℝ :=
  fun i =>
    p.pressure *
      flattenV p.mesh.V (fun v c => curvature p x v c / curvNorm p x v) i

/-- gradient = gradient_bending + gradient_penalty + force (the print of the
three norms in the source is I/O only). -/
noncomputable def gradient (p : problem) (x : Fin (3 * p.mesh.V) → ℝ) :
    Fin (3 * p.mesh.V) → ℝ :=
  fun i => gradient_bending p x i + gradient_penalty p x i + force p x i

/-- hessian_bending: self.hess.todense(), entrywise the same constant matrix. -/
noncomputable def hessian_bending (p : problem) :
    Matrix (Fin (3 * p.mesh.V)) (Fin (3 * p.mesh.V)) ℝ :=
  p.hess

/-- grad = self.gradient_penalty(x) + self.force(x) in hessian_penalty. -/
noncomputable def qn_grad (p : problem) (x : Fin (3 * p.mesh.V) → ℝ) :
    Fin (3 * p.mesh.V) → ℝ :=
  fun i => gradient_penalty p x i + force p x i

/-- s = x - self.x_pre. -/
def qn_s (p : problem) (st : QNState (3 * p.mesh.V))
    (x : Fin (3 * p.mesh.V) → ℝ) : Fin (3 * p.mesh.V) → ℝ :=
  fun i => x i - st.x_pre i

/-- y = grad - self.gradient_pre. -/
noncomputable def qn_y (p : problem) (st : QNState (3 * p.mesh.V))
    (x : Fin (3 * p.mesh.V) → ℝ) : Fin (3 * p.mesh.V) → ℝ :=
  fun i => qn_grad p x i - st.gradient_pre i

/-- hessian_penalty: the update of the stored approximate Hessian, and the
overwrite of the three state fields.  C = np.outer(y,y)/np.inner(y,s).
In D the numerator self.hess_pre * np.outer(s,s) * self.hess_pre.T joins
numpy ndarrays with the operator `*`, which multiplies ELEMENTWISE, so entry
(i,j) of the numerator is hess_pre[i,j] * s[i]*s[j] * hess_pre[j,i]; only
the denominator np.asscalar(np.matrix(s)*self.hess_pre*np.matrix(s).T) is a
true matrix product (np.matrix overloads `*`). -/
noncomputable def hessian_penalty (p : problem) (st : QNState (3 * p.mesh.V))
    (x : Fin (3 * p.mesh.V) → ℝ) :
    Matrix (Fin (3 * p.mesh.V)) (Fin (3 * p.mesh.V)) ℝ × QNState (3 * p.mesh.V) :=
  let s := qn_s p st x
  let y := qn_y p st x
  let C : Matrix (Fin (3 * p.mesh.V)) (Fin (3 * p.mesh.V)) ℝ :=
    fun i j => y i * y j / (∑ k, y k * s k)
  let D : Matrix (Fin (3 * p.mesh.V)) (Fin (3 * p.mesh.V)) ℝ :=
    fun i j =>
      st.hess_pre i j * (s i * s j) * st.hess_pre.transpose i j /
        (∑ k, ∑ l, s k * st.hess_pre k l * s l)
  let hess := st.hess_pre + C - D
  (hess, { gradient_pre := qn_grad p x, x_pre := x, hess_pre := hess })

/-- hessian: hessian_bending() + hessian_penalty(x), with the state the
hessian_penalty call leaves behind. -/
noncomputable def hessian (p : problem) (st : QNState (3 * p.mesh.V))
    (x : Fin (3 * p.mesh.V) → ℝ) :
    Matrix (Fin (3 * p.mesh.V)) (Fin (3 * p.mesh.V)) ℝ × QNState (3 * p.mesh.V) :=
  (hessian_bending p + (hessian_penalty p st x).1, (hessian_penalty p st x).2)

/-- The penalty gradient as the specification words it, for comparison with
the source's gradient_penalty: per vertex v, the sum over exactly the faces
adjacent to v (the faces containing v) of the sign-corrected per-face
contribution, the three components of vertex v placed at v's column-major
flat positions. -/
noncomputable def gradient_penalty_spec (p : problem) (x : Fin (3 * p.mesh.V) → ℝ) :
    Fin (3 * p.mesh.V) → ℝ :=
  fun i =>
    let v : Fin p.mesh.V := ⟨i.1 % p.mesh.V, Nat.mod_lt _ (by have h := i.isLt; omega)⟩
    let c : Fin 3 := ⟨i.1 / p.mesh.V, by
      have h := i.isLt
      exact Nat.div_lt_of_lt_mul (by omega)⟩
    p.penalty *
      (∑ f : Fin p.mesh.F,
        if v ∈ faceVerts p.mesh f then grad_pen_term p x v.1 f else 0) c

/-- The quasi-Newton update as the specification words it, for comparison
with the source's hessian_penalty: here the numerator of D is the matrix
product H_prev (s sᵀ) H_prevᵀ, entry (i,j) the double sum below, while the
C term and the two denominators are the shared ones. -/
noncomputable def hessian_penalty_bfgs (p : problem) (st : QNState (3 * p.mesh.V))
    (x : Fin (3 * p.mesh.V) → ℝ) :
    Matrix (Fin (3 * p.mesh.V)) (Fin (3 * p.mesh.V)) ℝ × QNState (3 * p.mesh.V) :=
  let s := qn_s p st x
  let y := qn_y p st x
  let C : Matrix (Fin (3 * p.mesh.V)) (Fin (3 * p.mesh.V)) ℝ :=
    fun i j => y i * y j / (∑ k, y k * s k)
  let D : Matrix (Fin (3 * p.mesh.V)) (Fin (3 * p.mesh.V)) ℝ :=
    fun i j =>
      (∑ k, ∑ l, st.hess_pre i k * (s k * s l) * st.hess_pre.transpose l j) /
        (∑ k, ∑ l, s k * st.hess_pre k l * s l)
  let hess := st.hess_pre + C - D
  (hess, { gradient_pre := qn_grad p x, x_pre := x, hess_pre := hess })

theorem cm_mod {V : ℕ} (v : Fin V) (c : Fin 3) : (c.1 * V + v.1) % V = v.1 := by
  rw [Nat.add_comm, Nat.add_mul_mod_self_right, Nat.mod_eq_of_lt v.isLt]

theorem cm_div {V : ℕ} (v : Fin V) (c : Fin 3) : (c.1 * V + v.1) / V = c.1 := by
  rw [Nat.add_comm, Nat.add_mul_div_right _ _ v.pos, Nat.div_eq_of_lt v.isLt,
    Nat.zero_add]

theorem sum_one_mul_vec {n : ℕ} (g : Fin n → ℝ) (i : Fin n) :
    ∑ k, (1 : Matrix (Fin n) (Fin n) ℝ) i k * g k = g i := by
  simp [Matrix.one_apply, ite_mul]

theorem quad_form_one {n : ℕ} (s : Fin n → ℝ) :
    ∑ k, ∑ l, s k * (1 : Matrix (Fin n) (Fin n) ℝ) k l * s l = ∑ k, s k * s k := by
  refine Finset.sum_congr rfl fun k _ => ?_
  simp [Matrix.one_apply, mul_ite, ite_mul]

theorem sqrt_four : Real.sqrt 4 = 2 := by
  rw [show (4 : ℝ) = 2 ^ 2 by norm_num, Real.sqrt_sq (by norm_num : (0:ℝ) ≤ 2)]

theorem deformedMesh_flattenV (m : Mesh) (M : Fin m.V → Fin 3 → ℝ) :
    deformedMesh m (flattenV m.V M) =
      { V := m.V, F := m.F, vertices := M, faces := m.faces } := by
  unfold deformedMesh
  rw [reshapeV_flattenV]

theorem deformedMesh_x0 (p : problem) : deformedMesh p.mesh p.x0 = p.mesh := by
  unfold problem.x0
  rw [deformedMesh_flattenV]

/-- At the rest state the deformed areas equal the rest areas, so every
accumulated contribution in the penalty gradient vanishes. -/
theorem gradient_penalty_at_rest (p : problem) (i : Fin (3 * p.mesh.V)) :
    gradient_penalty p p.x0 i = 0 := by
  have hterm : ∀ (v : ℕ) (f : Fin p.mesh.F) (c : Fin 3),
      grad_pen_term p p.x0 v f c = 0 := by
    intro v f c
    have hArea : faceArea (deformedMesh p.mesh p.x0) f = p.At0 f := by
      simp only [faceArea, deformedMesh, problem.At0, problem.x0, reshapeV_flattenV]
    simp only [grad_pen_term, hArea, sub_self, mul_zero, zero_div]
  unfold gradient_penalty grad_pen_vertex
  rw [Finset.sum_apply]
  have hz : ∀ f ∈ Finset.univ (α := Fin p.mesh.F),
      (if f.1 < (if h : (i.1 / 3) < (deformedMesh p.mesh p.x0).F then
          (faceAdjacentFaces (deformedMesh p.mesh p.x0) ⟨i.1 / 3, h⟩).length
        else 0) then grad_pen_term p p.x0 (i.1 / 3) f else 0)
        ⟨i.1 % 3, Nat.mod_lt _ (by omega)⟩ = 0 := by
    intro f _
    rw [apply_ite (fun w : Fin 3 → ℝ => w ⟨i.1 % 3, Nat.mod_lt _ (by omega)⟩)]
    simp [hterm]
  rw [Finset.sum_congr rfl hz]
  simp

/-- C3: obj_func(x) is obj_func_bending(x) + obj_func_penalty(x) with no
force contribution, while gradient(x) is gradient_bending(x) +
gradient_penalty(x) + force(x): the force enters the combined gradient with
no matching energy term in the objective. -/
theorem combined_objective_and_gradient (p : problem)
    (x : Fin (3 * p.mesh.V) → ℝ) :
    obj_func p x = obj_func_bending p x + obj_func_penalty p x ∧
    ∀ i, gradient p x i =
      gradient_bending p x i + gradient_penalty p x i + force p x i :=
  ⟨rfl, fun _ => rfl⟩

/-- C4: the bending energy is the quadratic form x H x / 2 of the constant
Hessian, the bending gradient is H x, and H is block-diagonal: at the
column-major index pairs it carries transpose(L) * inv(M0) * L on each of
the three coordinate blocks and 0 between different coordinates, for all x
(no state is read or written). -/
theorem bending_terms_from_constant_block_hessian (p : problem)
    (x : Fin (3 * p.mesh.V) → ℝ) :
    obj_func_bending p x = (∑ i, ∑ j, x i * p.hess i j * x j) / 2 ∧
    (∀ i, gradient_bending p x i = ∑ j, p.hess i j * x j) ∧
    (∀ (v w : Fin p.mesh.V) (c d : Fin 3),
      p.hess (cmIndex v c) (cmIndex w d) =
        if c = d then (p.L.transpose * p.initM⁻¹ * p.L) v w else 0) := by
  refine ⟨?_, ?_, ?_⟩
  · unfold obj_func_bending
    have h1 : (rowMat x * p.hess * colMat x) 0 0
        = ∑ j, (∑ k, x k * p.hess k j) * x j := by
      simp only [Matrix.mul_apply, rowMat, colMat]
    rw [h1]
    congr 1
    rw [show (∑ j, (∑ k, x k * p.hess k j) * x j)
        = ∑ j, ∑ k, x k * p.hess k j * x j from
      Finset.sum_congr rfl fun j _ => Finset.sum_mul _ _ _]
    exact Finset.sum_comm
  · intro i
    simp [gradient_bending, Matrix.mulVec, Matrix.dotProduct]
  · intro v w c d
    unfold problem.hess blockDiag3 problem.hess_block cmIndex
    simp only [cm_div v c, cm_div w d, cm_mod v c, cm_mod w d, Fin.eta,
      Fin.val_inj]

/-- C5: under strictly positive rest areas, obj_func_penalty(x) is
penalty times the sum over faces of (A_f(x) - A0_f)^2 / A0_f, the areas
taken on the mesh rebuilt from the column-major reshape of x; the rest
areas are the construction mesh's areas, fixed across calls. -/
theorem penalty_energy_is_relative_area_deviation (p : problem)
    (x : Fin (3 * p.mesh.V) → ℝ) (h : ∀ f, 0 < p.At0 f) :
    obj_func_penalty p x =
      p.penalty *
        ∑ f, (faceArea (deformedMesh p.mesh x) f - p.At0 f) ^ 2 / p.At0 f ∧
    ∀ f, p.At0 f = faceArea p.mesh f := by
  constructor
  · unfold obj_func_penalty euclNorm
    rw [Real.sq_sqrt (Finset.sum_nonneg fun f _ => sq_nonneg _)]
    congr 1
    refine Finset.sum_congr rfl fun f _ => ?_
    rw [div_pow, Real.sq_sqrt (h f).le]
  · intro f
    rfl

/-- C6: when every curvature row M0⁻¹ L X has nonzero norm, entry (v, c) of
force(x) under the column-major flattening is the pressure magnitude times
that row normalized to unit length. -/
theorem force_is_scaled_normalized_curvature (p : problem)
    (x : Fin (3 * p.mesh.V) → ℝ) (h : ∀ v, curvNorm p x v ≠ 0)
    (v : Fin p.mesh.V) (c : Fin 3) :
    force p x (cmIndex v c) =
      p.pressure * (curvature p x v c / curvNorm p x v) := by
  unfold force
  rw [flattenV_cmIndex]

/-- C7: the stored approximate Hessian starts symmetric (the identity), and
an update step with nonzero denominators sends a symmetric hess_pre to a
symmetric returned matrix, which is also what is stored back. -/
theorem hessian_penalty_update_symmetric (p : problem)
    (st : QNState (3 * p.mesh.V)) (x : Fin (3 * p.mesh.V) → ℝ)
    (hsym : ∀ i j, st.hess_pre i j = st.hess_pre j i)
    (hys : (∑ k, qn_y p st x k * qn_s p st x k) ≠ 0)
    (hshs : (∑ k, ∑ l, qn_s p st x k * st.hess_pre k l * qn_s p st x l) ≠ 0) :
    (∀ i j, (initState (3 * p.mesh.V)).hess_pre i j
        = (initState (3 * p.mesh.V)).hess_pre j i) ∧
    (∀ i j, (hessian_penalty p st x).1 i j = (hessian_penalty p st x).1 j i) ∧
    (hessian_penalty p st x).2.hess_pre = (hessian_penalty p st x).1 := by
  refine ⟨?_, ?_, rfl⟩
  · intro i j
    by_cases hij : i = j
    · rw [hij]
    · show (1 : Matrix _ _ ℝ) i j = (1 : Matrix _ _ ℝ) j i
      rw [Matrix.one_apply_ne hij, Matrix.one_apply_ne (Ne.symm hij)]
  · intro i j
    simp only [hessian_penalty, Matrix.sub_apply, Matrix.add_apply,
      Matrix.transpose_apply]
    rw [hsym i j]
    ring

/-- Rest vertex positions of the concrete test tetrahedron: the origin and
the three unit points (0,0,0), (1,0,0), (0,1,0), (0,0,1). -/
def tetVerts : Fin 4 → Fin 3 → ℝ := fun v c =>
  if v.1 = 1 ∧ c.1 = 0 then 1
  else if v.1 = 2 ∧ c.1 = 1 then 1
  else if v.1 = 3 ∧ c.1 = 2 then 1
  else 0

/-- Faces of the test tetrahedron: (0,1,2), (0,1,3), (0,2,3), (1,2,3). -/
def tetFaces : Fin 4 → Fin 3 → Fin 4 := fun f k =>
  ⟨if f.1 = 0 then (if k.1 = 0 then 0 else if k.1 = 1 then 1 else 2)
   else if f.1 = 1 then (if k.1 = 0 then 0 else if k.1 = 1 then 1 else 3)
   else if f.1 = 2 then (if k.1 = 0 then 0 else if k.1 = 1 then 2 else 3)
   else (if k.1 = 0 then 1 else if k.1 = 1 then 2 else 3),
   by split_ifs <;> norm_num⟩

/-- The concrete test tetrahedron. -/
def tetMesh : Mesh := { V := 4, F := 4, vertices := tetVerts, faces := tetFaces }

/-- A concrete problem on the test tetrahedron, with unit penalty and unit
pressure, and identity matrices standing for the assembled operators. -/
noncomputable def Ptet : problem :=
  { mesh := tetMesh, penalty := 1, pressure := 1, initM := 1, L := 1 }

/-- Deformed positions for the C1 failing input: vertex 3 moved from
(0,0,1) to (0,0,2), the other vertices at rest. -/
def c1Verts : Fin 4 → Fin 3 → ℝ := fun v c =>
  if v.1 = 1 ∧ c.1 = 0 then 1
  else if v.1 = 2 ∧ c.1 = 1 then 1
  else if v.1 = 3 ∧ c.1 = 2 then 2
  else 0

/-- The C1 failing state vector: the column-major flattening of c1Verts. -/
def xc1 : Fin (3 * 4) → ℝ := flattenV 4 c1Verts

/-- Deformed positions for the C10 input: vertex 0 moved onto vertex 1 at
(1,0,0), the rest of the tetrahedron at rest. -/
def c10Verts : Fin 4 → Fin 3 → ℝ := fun v c =>
  if v.1 = 0 ∧ c.1 = 0 then 1
  else if v.1 = 1 ∧ c.1 = 0 then 1
  else if v.1 = 2 ∧ c.1 = 1 then 1
  else if v.1 = 3 ∧ c.1 = 2 then 1
  else 0

/-- The C10 state vector: the column-major flattening of c10Verts. -/
def xc10 : Fin (3 * 4) → ℝ := flattenV 4 c10Verts

/-- The rest areas of the test tetrahedron are strictly positive. -/
theorem tet_At0_pos : ∀ f, 0 < Ptet.At0 f := by
  intro f
  fin_cases f <;>
    · simp only [problem.At0, Ptet, faceArea, tetMesh, tetFaces, tetVerts,
        norm3, dot3, cross3, Matrix.cons_val_zero, Matrix.cons_val_one,
        Matrix.head_cons, Matrix.cons_val_two, Matrix.tail_cons,
        Pi.sub_apply]
      norm_num
      try positivity

theorem Ptet_laplacian : Ptet.laplacian = 1 := by
  unfold problem.laplacian
  rw [show Ptet.initM = 1 from rfl, show Ptet.L = 1 from rfl, inv_one,
    Matrix.one_mul]

theorem Ptet_curvature_x0 (v : Fin 4) (c : Fin 3) :
    curvature Ptet Ptet.x0 v c = tetVerts v c := by
  show (∑ w : Fin 4, Ptet.laplacian v w * reshapeV 4 (flattenV 4 tetVerts) w c)
    = tetVerts v c
  rw [reshapeV_flattenV, Ptet_laplacian]
  exact sum_one_mul_vec (fun w => tetVerts w c) v

theorem Ptet_curvNorm_x0 (v : Fin 4) :
    curvNorm Ptet Ptet.x0 v = Real.sqrt (∑ c, tetVerts v c ^ 2) := by
  unfold curvNorm
  congr 1
  exact Finset.sum_congr rfl fun c _ => by rw [Ptet_curvature_x0 v c]

/-- With identity operators and unit pressure, the force at the rest state
of the test tetrahedron reproduces the rest vector itself: three rows are
already unit vectors and the origin row is zero (0/0 evaluates to 0 in the
real model). -/
theorem Ptet_force_x0 (k : Fin (3 * 4)) : force Ptet Ptet.x0 k = Ptet.x0 k := by
  show Ptet.pressure *
      flattenV 4 (fun v c => curvature Ptet Ptet.x0 v c / curvNorm Ptet Ptet.x0 v) k
    = flattenV 4 tetVerts k
  have hM : (fun (v : Fin 4) (c : Fin 3) =>
      curvature Ptet Ptet.x0 v c / curvNorm Ptet Ptet.x0 v) = tetVerts := by
    funext v c
    rw [Ptet_curvature_x0 v c, Ptet_curvNorm_x0 v]
    fin_cases v <;> fin_cases c <;>
      · rw [Fin.sum_univ_three]
        norm_num [tetVerts]
  rw [hM, show Ptet.pressure = 1 from rfl, one_mul]

theorem Ptet_x0_sq_sum : (∑ k, Ptet.x0 k * Ptet.x0 k) = 3 := by
  show (∑ k : Fin (3 * 4), flattenV 4 tetVerts k * flattenV 4 tetVerts k) = 3
  simp only [Fin.sum_univ_succ, Finset.univ_eq_empty, Finset.sum_empty,
    flattenV, Fin.val_succ, Fin.val_zero]
  norm_num [tetVerts]

/-- C7 witness: the symmetry statement instantiated at the tetrahedron
problem, the freshly constructed state and the rest vector, where both
update denominators evaluate to 3. -/
theorem hessian_penalty_update_symmetric_witness :
    (∀ i j, (initState (3 * Ptet.mesh.V)).hess_pre i j
        = (initState (3 * Ptet.mesh.V)).hess_pre j i) ∧
    (∀ i j, (hessian_penalty Ptet (initState (3 * Ptet.mesh.V)) Ptet.x0).1 i j
        = (hessian_penalty Ptet (initState (3 * Ptet.mesh.V)) Ptet.x0).1 j i) ∧
    (hessian_penalty Ptet (initState (3 * Ptet.mesh.V)) Ptet.x0).2.hess_pre
      = (hessian_penalty Ptet (initState (3 * Ptet.mesh.V)) Ptet.x0).1 :=
  hessian_penalty_update_symmetric Ptet (initState (3 * Ptet.mesh.V)) Ptet.x0
    (fun i j => by
      by_cases hij : i = j
      · rw [hij]
      · show (1 : Matrix _ _ ℝ) i j = (1 : Matrix _ _ ℝ) j i
        rw [Matrix.one_apply_ne hij, Matrix.one_apply_ne (Ne.symm hij)])
    (by
      have he : ∀ k, qn_y Ptet (initState (3 * Ptet.mesh.V)) Ptet.x0 k *
          qn_s Ptet (initState (3 * Ptet.mesh.V)) Ptet.x0 k
          = Ptet.x0 k * Ptet.x0 k := by
        intro k
        have h1 : qn_y Ptet (initState (3 * Ptet.mesh.V)) Ptet.x0 k
            = Ptet.x0 k := by
          simp [qn_y, qn_grad, initState, gradient_penalty_at_rest,
            Ptet_force_x0]
        have h2 : qn_s Ptet (initState (3 * Ptet.mesh.V)) Ptet.x0 k
            = Ptet.x0 k := by
          simp [qn_s, initState]
        rw [h1, h2]
      rw [Finset.sum_congr rfl fun k _ => he k, Ptet_x0_sq_sum]
      norm_num)
    (by
      have hs : ∀ k, qn_s Ptet (initState (3 * Ptet.mesh.V)) Ptet.x0 k
          = Ptet.x0 k :=
        fun k => by simp [qn_s, initState]
      have hH : (initState (3 * Ptet.mesh.V)).hess_pre = 1 := rfl
      rw [hH,
        Finset.sum_congr rfl fun k _ =>
          Finset.sum_congr rfl fun l _ => by rw [hs k, hs l],
        quad_form_one, Ptet_x0_sq_sum]
      norm_num)

/-- The all-ones state vector on the test tetrahedron. -/
def x1s : Fin (3 * 4) → ℝ := fun _ => 1

theorem Ptet_curvNorm_x1s (v : Fin 4) : curvNorm Ptet x1s v = Real.sqrt 3 := by
  have hc : ∀ c : Fin 3, curvature Ptet x1s v c = 1 := by
    intro c
    show (∑ w : Fin 4, Ptet.laplacian v w * reshapeV 4 x1s w c) = 1
    rw [Ptet_laplacian]
    exact sum_one_mul_vec (fun w : Fin 4 => reshapeV 4 x1s w c) v
  unfold curvNorm
  rw [Finset.sum_congr rfl fun c _ => by rw [hc c], Fin.sum_univ_three]
  norm_num

/-- C5 witness: instantiated at the tetrahedron problem, whose rest areas
are strictly positive, and the all-ones state vector. -/
theorem penalty_energy_is_relative_area_deviation_witness :
    (obj_func_penalty Ptet x1s =
      Ptet.penalty *
        ∑ f, (faceArea (deformedMesh Ptet.mesh x1s) f - Ptet.At0 f) ^ 2 /
          Ptet.At0 f) ∧
    ∀ f, Ptet.At0 f = faceArea Ptet.mesh f :=
  penalty_energy_is_relative_area_deviation Ptet x1s tet_At0_pos

/-- C6 witness: instantiated at the tetrahedron problem and the all-ones
state vector (every curvature row is (1,1,1), of norm sqrt 3), at vertex 0
and coordinate 1. -/
theorem force_is_scaled_normalized_curvature_witness :
    force Ptet x1s (cmIndex (⟨0, by decide⟩ : Fin Ptet.mesh.V) ⟨1, by decide⟩)
      = Ptet.pressure *
        (curvature Ptet x1s ⟨0, by decide⟩ ⟨1, by decide⟩ /
          curvNorm Ptet x1s ⟨0, by decide⟩) :=
  force_is_scaled_normalized_curvature Ptet x1s
    (fun v => by
      rw [Ptet_curvNorm_x1s v]
      exact Real.sqrt_ne_zero'.mpr (by norm_num))
    ⟨0, by decide⟩ ⟨1, by decide⟩

theorem double_sum_one_outer {n : ℕ} (s : Fin n → ℝ) (i j : Fin n) :
    ∑ k, ∑ l, (1 : Matrix (Fin n) (Fin n) ℝ) i k * (s k * s l) *
      (1 : Matrix (Fin n) (Fin n) ℝ) j l = s i * s j := by
  simp [Matrix.transpose_apply, Matrix.one_apply, ite_mul, mul_ite]

/-- C2: on the first call after construction, with the all-ones state
vector on the tetrahedron problem, the penalty Hessian the code returns
differs from the claim's matrix-product update: the code multiplies the
numerator of D elementwise (numpy ndarray *), so its off-diagonal entries
vanish, while the matrix-product D has entry s i * s j / (s H s); at entry
(0,1) the two matrices differ by exactly 1/12. -/
theorem hessian_penalty_elementwise_vs_matrix_product :
    (hessian_penalty Ptet (initState (3 * Ptet.mesh.V)) x1s).1
        ⟨0, by decide⟩ ⟨1, by decide⟩ -
      (hessian_penalty_bfgs Ptet (initState (3 * Ptet.mesh.V)) x1s).1
        ⟨0, by decide⟩ ⟨1, by decide⟩ = 1 / 12 ∧
    (hessian_penalty Ptet (initState (3 * Ptet.mesh.V)) x1s).1
        ⟨0, by decide⟩ ⟨1, by decide⟩ ≠
      (hessian_penalty_bfgs Ptet (initState (3 * Ptet.mesh.V)) x1s).1
        ⟨0, by decide⟩ ⟨1, by decide⟩ := by
  have hH : (initState (3 * Ptet.mesh.V)).hess_pre
      = (1 : Matrix (Fin (3 * Ptet.mesh.V)) (Fin (3 * Ptet.mesh.V)) ℝ) := rfl
  have hne : (⟨0, by decide⟩ : Fin (3 * Ptet.mesh.V)) ≠ ⟨1, by decide⟩ := by
    intro h
    exact absurd (congrArg Fin.val h) (by decide)
  have hs : ∀ k, qn_s Ptet (initState (3 * Ptet.mesh.V)) x1s k = 1 := by
    intro k
    simp [qn_s, initState, x1s]
  have hcard : (3 * Ptet.mesh.V) = 12 := rfl
  have hQ : (∑ k, ∑ l, qn_s Ptet (initState (3 * Ptet.mesh.V)) x1s k *
      (1 : Matrix (Fin (3 * Ptet.mesh.V)) (Fin (3 * Ptet.mesh.V)) ℝ) k l *
      qn_s Ptet (initState (3 * Ptet.mesh.V)) x1s l) = 12 := by
    rw [quad_form_one, Finset.sum_congr rfl fun k _ => by rw [hs k]]
    simp only [one_mul, Finset.sum_const, Finset.card_univ, Fintype.card_fin,
      nsmul_eq_mul, mul_one]
    rw [hcard]
    norm_num
  have hdiff : (hessian_penalty Ptet (initState (3 * Ptet.mesh.V)) x1s).1
      ⟨0, by decide⟩ ⟨1, by decide⟩ -
      (hessian_penalty_bfgs Ptet (initState (3 * Ptet.mesh.V)) x1s).1
      ⟨0, by decide⟩ ⟨1, by decide⟩ = 1 / 12 := by
    simp only [hessian_penalty, hessian_penalty_bfgs, Matrix.sub_apply,
      Matrix.add_apply, Matrix.transpose_apply]
    rw [hH, double_sum_one_outer, hQ, hs ⟨0, by decide⟩, hs ⟨1, by decide⟩,
      Matrix.one_apply_ne hne, Matrix.one_apply_ne (Ne.symm hne)]
    ring
  refine ⟨hdiff, fun heq => ?_⟩
  rw [heq, sub_self] at hdiff
  norm_num at hdiff

/-- Vertex positions with vertices 0, 1, 2 collinear: (0,0,0), (2,0,0),
(1,0,0), and vertex 3 at (0,1,0). -/
def degVerts : Fin 4 → Fin 3 → ℝ := fun v c =>
  if v.1 = 1 ∧ c.1 = 0 then 2
  else if v.1 = 2 ∧ c.1 = 0 then 1
  else if v.1 = 3 ∧ c.1 = 1 then 1
  else 0

/-- Faces (0,1,2) (degenerate), (0,1,3) and (1,2,3): every vertex also lies
on a non-degenerate face. -/
def degFaces : Fin 3 → Fin 3 → Fin 4 := fun f k =>
  ⟨if f.1 = 0 then (if k.1 = 0 then 0 else if k.1 = 1 then 1 else 2)
   else if f.1 = 1 then (if k.1 = 0 then 0 else if k.1 = 1 then 1 else 3)
   else (if k.1 = 0 then 1 else if k.1 = 1 then 2 else 3),
   by split_ifs <;> norm_num⟩

/-- A mesh whose face 0 has zero area. -/
def degMesh : Mesh := { V := 4, F := 3, vertices := degVerts, faces := degFaces }

/-- C9 counterexample: constructing the model on a mesh with a degenerate
(zero-area) face raises nothing: __init__ has no validation, construction
returns a problem object, and the zero rest area is stored in At0 — the
division by At0 is only reached later, inside the penalty evaluators. -/
theorem construction_accepts_degenerate_face :
    ((mkProblem 1 1 degMesh 1 1).1).At0 ⟨0, by decide⟩ = 0 := by
  show faceArea degMesh ⟨0, by decide⟩ = 0
  simp only [faceArea, degMesh, degFaces, degVerts, norm3, dot3, cross3,
    Matrix.cons_val_zero, Matrix.cons_val_one, Matrix.head_cons,
    Matrix.cons_val_two, Matrix.tail_cons, Pi.sub_apply]
  norm_num

/-- C9 amended: construction always succeeds — for every mesh (degenerate
faces included), __init__ only stores the inputs, caches the unvalidated
rest areas and resets the quasi-Newton state; no failure can occur before
the evaluators run. -/
theorem construction_performs_no_validation (pen pr : ℝ) (m : Mesh)
    (M0 L : Matrix (Fin m.V) (Fin m.V) ℝ) :
    ((mkProblem pen pr m M0 L).1).mesh = m ∧
    (∀ f, ((mkProblem pen pr m M0 L).1).At0 f = faceArea m f) ∧
    (mkProblem pen pr m M0 L).2 = initState (3 * m.V) :=
  ⟨rfl, fun _ => rfl, rfl⟩

/-- C10: the sign test divides by norm3 g0 * norm3 w with no guard, and
strictly positive rest areas do not make that divisor nonzero: on the
tetrahedron problem every rest area is positive, yet with vertex 0 deformed
onto vertex 1 the divisor of the visited term (v = 0, f = 0) — face 0 is
visited, the loop bound being the positive adjacency count — is zero,
because w = vertices[0] - vertices[1] vanishes on the deformed mesh. -/
theorem sign_test_divisor_vanishes_on_valid_rest_mesh :
    (∀ f, 0 < Ptet.At0 f) ∧
    0 < (faceAdjacentFaces (deformedMesh Ptet.mesh xc10) ⟨0, by decide⟩).length ∧
    norm3 (pen_g0 Ptet xc10 0 ⟨0, by decide⟩) *
      norm3 (pen_w Ptet xc10 0 ⟨0, by decide⟩) = 0 := by
  have hverts : (deformedMesh Ptet.mesh xc10).vertices = c10Verts := by
    show reshapeV 4 (flattenV 4 c10Verts) = c10Verts
    exact reshapeV_flattenV 4 c10Verts
  have htri : setdiff1d_face (deformedMesh Ptet.mesh xc10) ⟨0, by decide⟩ 0
      = [1, 2] := by decide
  have hV4 : (deformedMesh Ptet.mesh xc10).V = 4 := rfl
  have hw : pen_w Ptet xc10 0 ⟨0, by decide⟩ = 0 := by
    funext c
    simp only [pen_w, htri, vpos, hverts, hV4]
    fin_cases c <;> norm_num [c10Verts]
  refine ⟨tet_At0_pos, by decide, ?_⟩
  rw [hw]
  simp [norm3, dot3]

theorem fin4_val_zero : ((0 : Fin 4) : ℕ) = 0 := rfl

theorem fin4_val_one : ((1 : Fin 4) : ℕ) = 1 := rfl

theorem fin4_val_two : ((2 : Fin 4) : ℕ) = 2 := rfl

theorem fin4_val_three : ((3 : Fin 4) : ℕ) = 3 := rfl

theorem fin3_val_zero : ((0 : Fin 3) : ℕ) = 0 := rfl

theorem fin3_val_one : ((1 : Fin 3) : ℕ) = 1 := rfl

theorem fin3_val_two : ((2 : Fin 3) : ℕ) = 2 := rfl

theorem faceArea_eq (m : Mesh) (f : Fin m.F) :
    faceArea m f = norm3 (faceNormalVec m f) / 2 := rfl

/-- If the candidate cross product has a zero component, the corresponding
component of the loop term is zero whatever the sign test decides. -/
theorem grad_pen_term_comp_zero (p : problem) (x : Fin (3 * p.mesh.V) → ℝ)
    (v : ℕ) (f : Fin p.mesh.F) (c : Fin 3) (h0 : pen_g0 p x v f c = 0) :
    grad_pen_term p x v f c = 0 := by
  simp only [grad_pen_term, apply_ite (fun u : Fin 3 → ℝ => u c),
    Pi.neg_apply, h0, neg_zero, ite_self, mul_zero, zero_mul, zero_div]

/-- If the deformed area matches the rest area, the loop term is zero. -/
theorem grad_pen_term_area_zero (p : problem) (x : Fin (3 * p.mesh.V) → ℝ)
    (v : ℕ) (f : Fin p.mesh.F)
    (h0 : faceArea (deformedMesh p.mesh x) f = p.At0 f) (c : Fin 3) :
    grad_pen_term p x v f c = 0 := by
  simp only [grad_pen_term, h0, sub_self, mul_zero, zero_div]

theorem c1_dm_verts : (deformedMesh Ptet.mesh xc1).vertices = c1Verts :=
  reshapeV_flattenV 4 c1Verts

theorem c1_vpos (n : ℕ) (h : n < 4) :
    vpos (deformedMesh Ptet.mesh xc1) n = c1Verts ⟨n, h⟩ := by
  unfold vpos
  rw [dif_pos (show n < (deformedMesh Ptet.mesh xc1).V from h)]
  rw [show (deformedMesh Ptet.mesh xc1).vertices = c1Verts from c1_dm_verts]

theorem c1_fnv0 :
    faceNormalVec (deformedMesh Ptet.mesh xc1) (0 : Fin 4) = ![0, 0, 1] := by
  funext c
  simp only [faceNormalVec,
    show (deformedMesh Ptet.mesh xc1).faces = tetFaces from rfl, c1_dm_verts,
    show tetFaces (0 : Fin 4) 0 = 0 from by decide,
    show tetFaces (0 : Fin 4) 1 = 1 from by decide,
    show tetFaces (0 : Fin 4) 2 = 2 from by decide]
  fin_cases c <;>
    norm_num [cross3, c1Verts, Pi.sub_apply, Matrix.cons_val_zero,
      Matrix.cons_val_one, Matrix.head_cons, Matrix.cons_val_two,
      Matrix.tail_cons, fin4_val_zero, fin4_val_one, fin4_val_two]

theorem c1_fnv1 :
    faceNormalVec (deformedMesh Ptet.mesh xc1) (1 : Fin 4) = ![0, -2, 0] := by
  funext c
  simp only [faceNormalVec,
    show (deformedMesh Ptet.mesh xc1).faces = tetFaces from rfl, c1_dm_verts,
    show tetFaces (1 : Fin 4) 0 = 0 from by decide,
    show tetFaces (1 : Fin 4) 1 = 1 from by decide,
    show tetFaces (1 : Fin 4) 2 = 3 from by decide]
  fin_cases c <;>
    norm_num [cross3, c1Verts, Pi.sub_apply, Matrix.cons_val_zero,
      Matrix.cons_val_one, Matrix.head_cons, Matrix.cons_val_two,
      Matrix.tail_cons, fin4_val_zero, fin4_val_one, fin4_val_three]

theorem c1_fnv2 :
    faceNormalVec (deformedMesh Ptet.mesh xc1) (2 : Fin 4) = ![2, 0, 0] := by
  funext c
  simp only [faceNormalVec,
    show (deformedMesh Ptet.mesh xc1).faces = tetFaces from rfl, c1_dm_verts,
    show tetFaces (2 : Fin 4) 0 = 0 from by decide,
    show tetFaces (2 : Fin 4) 1 = 2 from by decide,
    show tetFaces (2 : Fin 4) 2 = 3 from by decide]
  fin_cases c <;>
    norm_num [cross3, c1Verts, Pi.sub_apply, Matrix.cons_val_zero,
      Matrix.cons_val_one, Matrix.head_cons, Matrix.cons_val_two,
      Matrix.tail_cons, fin4_val_zero, fin4_val_two, fin4_val_three]

theorem tet_fnv0 : faceNormalVec tetMesh (0 : Fin 4) = ![0, 0, 1] := by
  funext c
  simp only [faceNormalVec, show tetMesh.faces = tetFaces from rfl,
    show tetMesh.vertices = tetVerts from rfl,
    show tetFaces (0 : Fin 4) 0 = 0 from by decide,
    show tetFaces (0 : Fin 4) 1 = 1 from by decide,
    show tetFaces (0 : Fin 4) 2 = 2 from by decide]
  fin_cases c <;>
    norm_num [cross3, tetVerts, Pi.sub_apply, Matrix.cons_val_zero,
      Matrix.cons_val_one, Matrix.head_cons, Matrix.cons_val_two,
      Matrix.tail_cons, fin4_val_zero, fin4_val_one, fin4_val_two]

theorem tet_fnv2 : faceNormalVec tetMesh (2 : Fin 4) = ![1, 0, 0] := by
  funext c
  simp only [faceNormalVec, show tetMesh.faces = tetFaces from rfl,
    show tetMesh.vertices = tetVerts from rfl,
    show tetFaces (2 : Fin 4) 0 = 0 from by decide,
    show tetFaces (2 : Fin 4) 1 = 2 from by decide,
    show tetFaces (2 : Fin 4) 2 = 3 from by decide]
  fin_cases c <;>
    norm_num [cross3, tetVerts, Pi.sub_apply, Matrix.cons_val_zero,
      Matrix.cons_val_one, Matrix.head_cons, Matrix.cons_val_two,
      Matrix.tail_cons, fin4_val_zero, fin4_val_two, fin4_val_three]

theorem c1_g0_v1f0 : pen_g0 Ptet xc1 1 (0 : Fin 4) (1 : Fin 3) = 0 := by
  simp only [pen_g0,
    show setdiff1d_face (deformedMesh Ptet.mesh xc1) (0 : Fin 4) 1 = [0, 2]
      from by decide]
  rw [show ([0, 2] : List ℕ).getD 0 0 = 0 from rfl,
    show ([0, 2] : List ℕ).getD 1 0 = 2 from rfl,
    c1_vpos 0 (by norm_num), c1_vpos 2 (by norm_num)]
  simp only [cross3, faceNormal, c1_fnv0, Matrix.cons_val_zero,
    Matrix.cons_val_one, Matrix.head_cons, Matrix.cons_val_two,
    Matrix.tail_cons, Pi.sub_apply]
  norm_num [c1Verts]

theorem c1_g0_v1f1 : pen_g0 Ptet xc1 1 (1 : Fin 4) (1 : Fin 3) = 0 := by
  simp only [pen_g0,
    show setdiff1d_face (deformedMesh Ptet.mesh xc1) (1 : Fin 4) 1 = [0, 3]
      from by decide]
  rw [show ([0, 3] : List ℕ).getD 0 0 = 0 from rfl,
    show ([0, 3] : List ℕ).getD 1 0 = 3 from rfl,
    c1_vpos 0 (by norm_num), c1_vpos 3 (by norm_num)]
  simp only [cross3, faceNormal, c1_fnv1, Matrix.cons_val_zero,
    Matrix.cons_val_one, Matrix.head_cons, Matrix.cons_val_two,
    Matrix.tail_cons, Pi.sub_apply]
  norm_num [c1Verts]

theorem c1_g0_v1f2 : pen_g0 Ptet xc1 1 (2 : Fin 4) (1 : Fin 3) = 0 := by
  simp only [pen_g0,
    show setdiff1d_face (deformedMesh Ptet.mesh xc1) (2 : Fin 4) 1 = [0, 2, 3]
      from by decide]
  rw [show ([0, 2, 3] : List ℕ).getD 0 0 = 0 from rfl,
    show ([0, 2, 3] : List ℕ).getD 1 0 = 2 from rfl,
    c1_vpos 0 (by norm_num), c1_vpos 2 (by norm_num)]
  simp only [cross3, faceNormal, c1_fnv2, Matrix.cons_val_zero,
    Matrix.cons_val_one, Matrix.head_cons, Matrix.cons_val_two,
    Matrix.tail_cons, Pi.sub_apply]
  norm_num [c1Verts]

theorem c1_g0_v0f1 : pen_g0 Ptet xc1 0 (1 : Fin 4) (1 : Fin 3) = 0 := by
  simp only [pen_g0,
    show setdiff1d_face (deformedMesh Ptet.mesh xc1) (1 : Fin 4) 0 = [1, 3]
      from by decide]
  rw [show ([1, 3] : List ℕ).getD 0 0 = 1 from rfl,
    show ([1, 3] : List ℕ).getD 1 0 = 3 from rfl,
    c1_vpos 1 (by norm_num), c1_vpos 3 (by norm_num)]
  simp only [cross3, faceNormal, c1_fnv1, Matrix.cons_val_zero,
    Matrix.cons_val_one, Matrix.head_cons, Matrix.cons_val_two,
    Matrix.tail_cons, Pi.sub_apply]
  norm_num [c1Verts]

theorem c1_area0 :
    faceArea (deformedMesh Ptet.mesh xc1) (0 : Fin 4) = Ptet.At0 (0 : Fin 4) := by
  show faceArea (deformedMesh Ptet.mesh xc1) (0 : Fin 4)
    = faceArea tetMesh (0 : Fin 4)
  rw [faceArea_eq, faceArea_eq, c1_fnv0, tet_fnv0]

theorem c1_term_v0f2 : grad_pen_term Ptet xc1 0 (2 : Fin 4) (1 : Fin 3) = -4 := by
  have hnn : norm3 ![(2:ℝ), 0, 0] = 2 := by
    simp only [norm3, dot3, Matrix.cons_val_zero, Matrix.cons_val_one,
      Matrix.head_cons, Matrix.cons_val_two, Matrix.tail_cons]
    norm_num [sqrt_four]
  have hn : faceNormal (deformedMesh Ptet.mesh xc1) (2 : Fin 4) = ![1, 0, 0] := by
    funext c
    simp only [faceNormal, c1_fnv2, hnn]
    fin_cases c <;>
      norm_num [Matrix.cons_val_zero, Matrix.cons_val_one, Matrix.head_cons,
        Matrix.cons_val_two, Matrix.tail_cons]
  have hg0 : pen_g0 Ptet xc1 0 (2 : Fin 4) = ![0, 2, 1] := by
    simp only [pen_g0,
      show setdiff1d_face (deformedMesh Ptet.mesh xc1) (2 : Fin 4) 0 = [2, 3]
        from by decide]
    rw [show ([2, 3] : List ℕ).getD 0 0 = 2 from rfl,
      show ([2, 3] : List ℕ).getD 1 0 = 3 from rfl,
      c1_vpos 2 (by norm_num), c1_vpos 3 (by norm_num), hn]
    funext c
    fin_cases c <;>
      norm_num [cross3, c1Verts, Pi.sub_apply, Matrix.cons_val_zero,
        Matrix.cons_val_one, Matrix.head_cons, Matrix.cons_val_two,
        Matrix.tail_cons]
  have hw : pen_w Ptet xc1 0 (2 : Fin 4) = ![0, -1, 0] := by
    simp only [pen_w,
      show setdiff1d_face (deformedMesh Ptet.mesh xc1) (2 : Fin 4) 0 = [2, 3]
        from by decide]
    rw [show ([2, 3] : List ℕ).getD 0 0 = 2 from rfl,
      c1_vpos 0 (by norm_num), c1_vpos 2 (by norm_num)]
    funext c
    fin_cases c <;>
      norm_num [c1Verts, Pi.sub_apply, Matrix.cons_val_zero,
        Matrix.cons_val_one, Matrix.head_cons, Matrix.cons_val_two,
        Matrix.tail_cons]
  have hcond : dot3 (pen_g0 Ptet xc1 0 (2 : Fin 4)) (pen_w Ptet xc1 0 (2 : Fin 4)) /
      (norm3 (pen_g0 Ptet xc1 0 (2 : Fin 4)) * norm3 (pen_w Ptet xc1 0 (2 : Fin 4)))
      < 0 := by
    rw [hg0, hw]
    have h1 : dot3 ![(0:ℝ), 2, 1] ![0, -1, 0] = -2 := by
      norm_num [dot3, Matrix.cons_val_zero, Matrix.cons_val_one,
        Matrix.head_cons, Matrix.cons_val_two, Matrix.tail_cons]
    have h2 : norm3 ![(0:ℝ), -1, 0] = 1 := by
      simp only [norm3, dot3, Matrix.cons_val_zero, Matrix.cons_val_one,
        Matrix.head_cons, Matrix.cons_val_two, Matrix.tail_cons]
      norm_num
    rw [h1, h2, mul_one]
    apply div_neg_of_neg_of_pos (by norm_num)
    simp only [norm3, dot3, Matrix.cons_val_zero, Matrix.cons_val_one,
      Matrix.head_cons, Matrix.cons_val_two, Matrix.tail_cons]
    norm_num
  have hA : faceArea (deformedMesh Ptet.mesh xc1) (2 : Fin 4) = 1 := by
    rw [faceArea_eq, c1_fnv2, hnn]
    norm_num
  have hA0 : Ptet.At0 (2 : Fin 4) = 1 / 2 := by
    show faceArea tetMesh (2 : Fin 4) = 1 / 2
    rw [faceArea_eq, tet_fnv2]
    have h1 : norm3 ![(1:ℝ), 0, 0] = 1 := by
      simp only [norm3, dot3, Matrix.cons_val_zero, Matrix.cons_val_one,
        Matrix.head_cons, Matrix.cons_val_two, Matrix.tail_cons]
      norm_num
    rw [h1]
  simp only [grad_pen_term]
  rw [if_pos hcond, hA, hA0, hg0]
  simp only [Pi.neg_apply, Matrix.cons_val_one, Matrix.head_cons]
  norm_num

theorem c1_lhs : gradient_penalty Ptet xc1 ⟨4, by decide⟩ = 0 := by
  have hk : (if h : (1 : ℕ) < (deformedMesh Ptet.mesh xc1).F then
      (faceAdjacentFaces (deformedMesh Ptet.mesh xc1) ⟨1, h⟩).length
    else 0) = 3 := by decide
  have hsum : grad_pen_vertex Ptet xc1 1 (1 : Fin 3) = 0 := by
    simp only [grad_pen_vertex]
    rw [hk, Finset.sum_apply]
    show (∑ c : Fin 4,
      (if (c : ℕ) < 3 then grad_pen_term Ptet xc1 1 c else 0) (1 : Fin 3)) = 0
    rw [Fin.sum_univ_four]
    simp only [ite_apply, Pi.zero_apply, fin4_val_zero, fin4_val_one,
      fin4_val_two, fin4_val_three]
    norm_num [grad_pen_term_comp_zero Ptet xc1 1 (0 : Fin 4) (1 : Fin 3) c1_g0_v1f0,
      grad_pen_term_comp_zero Ptet xc1 1 (1 : Fin 4) (1 : Fin 3) c1_g0_v1f1,
      grad_pen_term_comp_zero Ptet xc1 1 (2 : Fin 4) (1 : Fin 3) c1_g0_v1f2]
  show Ptet.penalty * grad_pen_vertex Ptet xc1 1 (1 : Fin 3) = 0
  rw [hsum, mul_zero]

theorem c1_rhs : gradient_penalty_spec Ptet xc1 ⟨4, by decide⟩ = -4 := by
  show Ptet.penalty *
      (∑ f : Fin Ptet.mesh.F,
        if (0 : Fin 4) ∈ faceVerts Ptet.mesh f then grad_pen_term Ptet xc1 0 f
        else 0) (1 : Fin 3) = -4
  rw [Finset.sum_apply]
  show Ptet.penalty * (∑ c : Fin 4,
      (if (0 : Fin 4) ∈ faceVerts Ptet.mesh c then grad_pen_term Ptet xc1 0 c
        else 0) (1 : Fin 3)) = -4
  rw [Fin.sum_univ_four]
  simp only [ite_apply, Pi.zero_apply]
  rw [if_pos (show (0 : Fin 4) ∈ faceVerts Ptet.mesh (0 : Fin 4) from by decide),
    if_pos (show (0 : Fin 4) ∈ faceVerts Ptet.mesh (1 : Fin 4) from by decide),
    if_pos (show (0 : Fin 4) ∈ faceVerts Ptet.mesh (2 : Fin 4) from by decide),
    if_neg (show ¬ (0 : Fin 4) ∈ faceVerts Ptet.mesh (3 : Fin 4) from by decide),
    grad_pen_term_area_zero Ptet xc1 0 (0 : Fin 4) c1_area0 (1 : Fin 3),
    grad_pen_term_comp_zero Ptet xc1 0 (1 : Fin 4) (1 : Fin 3) c1_g0_v0f1,
    c1_term_v0f2, show Ptet.penalty = 1 from rfl]
  norm_num

/-- C1: the code's gradient_penalty disagrees with the specification's
per-vertex formula.  On the tetrahedron problem with vertex 3 moved to
(0,0,2), output entry 4 of the code is 0 (the loop iterates over the first
len(get_face_adjacent_faces(v)) face indices and writes av to the row-major
slice a[3v:3v+3], so entry 4 is the y component of vertex 1's accumulated
vector, which vanishes), while the specification's formula — sum over the
faces adjacent to vertex v placed at v's column-major positions — puts the
y component of vertex 0 there, whose value is -4. -/
theorem gradient_penalty_diverges_from_spec :
    gradient_penalty Ptet xc1 ⟨4, by decide⟩ = 0 ∧
    gradient_penalty_spec Ptet xc1 ⟨4, by decide⟩ = -4 :=
  ⟨c1_lhs, c1_rhs⟩

end Mem3DG
